import Mathlib

/-!
Shallow embedding of the mcp-files-server file-operation core (src/main.go).

Paths are modelled with Unix semantics (the deployment platform of the
repository): the separator is the forward slash and the backslash is an
ordinary character.  Strings are manipulated through their character lists
so that every definition evaluates by `rfl`/`decide`.

The pieces embedded here, each translated from the Go source:
  * `filepathClean`, `filepathJoin`, `filepathAbs` - Go's `path/filepath`
    lexical cleaning as used by `validatePath`;
  * `validatePath` - src/main.go lines 142-176, with the value of the
    `LOCAL_WORKSPACE_FOLDER` environment variable and the working directory
    passed explicitly (the Go code reads them via `os.Getenv`/`filepath.Abs`
    on every call);
  * an explicit filesystem model `FsNode` with the semantics of the
    `os` primitives the handlers use (`Stat`, `ReadDir`, `Remove`,
    `RemoveAll`, `MkdirAll`, `WriteFile`, `ReadFile`);
  * the seven tool handlers and `buildTreeView`.
-/

/-- Split a character list on a separator character, like Go's
`strings.Split`; splitting the empty string yields one empty component. -/
def chSplit (sep : Char) : List Char → List (List Char)
  | [] => [[]]
  | c :: rest =>
    let r := chSplit sep rest
    if c = sep then [] :: r
    else
      match r with
      | [] => [[c]]
      | h :: t => (c :: h) :: t

/-- Boolean test that the first list is a prefix of the second. -/
def chPrefix : List Char → List Char → Bool
  | [], _ => true
  | _ :: _, [] => false
  | a :: as, b :: bs => if a = b then chPrefix as bs else false

/-- Go `strings.HasPrefix s p`. -/
def strHasPrefix (s p : String) : Bool :=
  chPrefix p.toList s.toList

/-- Go `strings.TrimPrefix s p`: drop `p` from the front of `s` when present. -/
def strTrimPrefix (s p : String) : String :=
  if chPrefix p.toList s.toList then (s.toList.drop p.toList.length).asString else s

/-- Join path components with the separator (inverse of splitting). -/
def joinSlash : List String → String
  | [] => ""
  | [x] => x
  | x :: xs => x ++ "/" ++ joinSlash xs

/-- One step of Go `filepath.Clean`'s component processing.  The
accumulator is the output stack in reverse order. -/
def cleanStep (rooted : Bool) (out : List String) (c : String) : List String :=
  if c = "" ∨ c = "." then out
  else if c = ".." then
    match out with
    | [] => if rooted then [] else [".."]
    | last :: rest => if last = ".." then ".." :: last :: rest else rest
  else c :: out

/-- Go `filepath.Clean` on Unix: collapse `.`/`..`/repeated separators
lexically; `..` cannot back up past the root of a rooted path. -/
def filepathClean (p : String) : String :=
  let cs := p.toList
  let rooted : Bool := chPrefix ['/'] cs
  let comps := (chSplit '/' cs).map List.asString
  let out := (comps.foldl (cleanStep rooted) []).reverse
  let body := joinSlash out
  if rooted then "/" ++ body
  else if body = "" then "." else body

/-- Go `filepath.Join a b` on Unix: empty elements are dropped, the rest
joined with a separator and cleaned. -/
def filepathJoin (a b : String) : String :=
  if a = "" then
    if b = "" then "" else filepathClean b
  else if b = "" then filepathClean a
  else filepathClean (a ++ "/" ++ b)

/-- Go `filepath.Abs` with an explicit working directory: absolute inputs
are cleaned, relative inputs joined onto the working directory. -/
def filepathAbs (cwd p : String) : String :=
  if strHasPrefix p "/" then filepathClean p else filepathJoin cwd p

/-- Failure modes of `validatePath` (src/main.go lines 142-176). -/
inductive PathError where
  | configMissing
  | outsideWorkspace
  deriving DecidableEq, Repr

/-- `validatePath` from src/main.go lines 142-176.  `env` is the value the
Go code obtains from `os.Getenv ("LOCAL_WORKSPACE_FOLDER")` at call time
(empty string when unset) and `cwd` the process working directory used by
`filepath.Abs`.  Cleans the user path, strips one leading `/` and one
leading `\`, joins onto the absolute workspace folder, re-resolves, and
accepts iff the workspace folder is a plain string prefix of the result. -/
def validatePath (env cwd userPath : String) : Except PathError String :=
  if env = "" then .error .configMissing
  else
    let absWorkspace := filepathAbs cwd env
    let c1 := filepathClean userPath
    let c2 := strTrimPrefix c1 "/"
    let c3 := strTrimPrefix c2 "\\"
    let fullPath := filepathJoin absWorkspace c3
    let absFullPath := filepathAbs cwd fullPath
    if strHasPrefix absFullPath absWorkspace then .ok absFullPath
    else .error .outsideWorkspace

example : filepathClean "" = "." := by decide
example : filepathClean "a/../../b" = "../b" := by decide
example : filepathClean "/.." = "/" := by decide
example : filepathClean "//a/b/.." = "/a" := by decide
example : validatePath "/ws" "/c" "" = .ok "/ws" := rfl
example : validatePath "/ws" "/c" "../secret.txt" = .error .outsideWorkspace := rfl
example : validatePath "/ws" "/c" "/etc/passwd" = .ok "/ws/etc/passwd" := rfl
example : validatePath "/ws" "/c" "../wsx/f" = .ok "/wsx/f" := rfl
example : validatePath "/ws" "/c" "\\.." = .error .outsideWorkspace := rfl

/-!
## Filesystem model

A directory tree.  A file stores its content (Go reports its size as the
byte length of the content) together with a flag modelling whether
`entry.Info()` fails for it; a directory stores its entries together with a
flag modelling whether `os.ReadDir` fails on it.  Entries are kept in the
physical (arbitrary) order of the directory; `os.ReadDir` returns them
sorted by filename, modelled by `readDirSorted`.
-/

inductive FsNode where
  | file (content : String) (infoErr : Bool)
  | dir (readErr : Bool) (entries : List (String × FsNode))

/-- First entry with the given name, like a directory lookup. -/
def findEntry : List (String × FsNode) → String → Option FsNode
  | [], _ => none
  | (n, node) :: rest, c => if n = c then some node else findEntry rest c

/-- Replace the (first) entry with the given name. -/
def setEntry : List (String × FsNode) → String → FsNode → List (String × FsNode)
  | [], _, _ => []
  | (n, node) :: rest, c, v =>
    if n = c then (n, v) :: rest else (n, node) :: setEntry rest c v

/-- Drop the (first) entry with the given name. -/
def delEntry : List (String × FsNode) → String → List (String × FsNode)
  | [], _ => []
  | (n, node) :: rest, c => if n = c then rest else (n, node) :: delEntry rest c

/-- Components of a cleaned absolute path: split on the separator and drop
the empty pieces. -/
def pathComponents (s : String) : List String :=
  ((chSplit '/' s.toList).map List.asString).filter (fun c => ¬ c = "")

/-- `os.Stat`-style lookup: the node at a component path, if any. -/
def FsNode.lookup : FsNode → List String → Option FsNode
  | n, [] => some n
  | .file _ _, _ :: _ => none
  | .dir _ es, c :: rest =>
    match findEntry es c with
    | none => none
    | some child => child.lookup rest

/-- `os.Remove` deletes a file or an empty directory, nothing else. -/
def removable : FsNode → Bool
  | .file _ _ => true
  | .dir _ es => es.isEmpty

/-- `os.Remove`: unlink the entry at the path; `none` models the error
returned when the target is missing, is a non-empty directory, or is the
root itself. -/
def fsRemove : FsNode → List String → Option FsNode
  | _, [] => none
  | .file _ _, _ :: _ => none
  | .dir re es, c :: rest =>
    match findEntry es c with
    | none => none
    | some child =>
      match rest with
      | [] => if removable child then some (.dir re (delEntry es c)) else none
      | _ :: _ => (fsRemove child rest).map (fun x => .dir re (setEntry es c x))

/-- `os.RemoveAll` on an existing path: drop the whole subtree (total; the
handlers only call it after a successful `Stat`). -/
def fsDeleteAt : FsNode → List String → FsNode
  | n, [] => n
  | .file content ie, _ :: _ => .file content ie
  | .dir re es, c :: rest =>
    match rest with
    | [] => .dir re (delEntry es c)
    | _ :: _ =>
      match findEntry es c with
      | none => .dir re es
      | some child => .dir re (setEntry es c (fsDeleteAt child rest))

/-- `os.MkdirAll`: create every missing directory along the path; `none`
models the error raised when some component exists as a file. -/
def fsMkdirAll : FsNode → List String → Option FsNode
  | .file _ _, [] => none
  | .dir re es, [] => some (.dir re es)
  | .file _ _, _ :: _ => none
  | .dir re es, c :: rest =>
    match findEntry es c with
    | some child => (fsMkdirAll child rest).map (fun x => .dir re (setEntry es c x))
    | none => (fsMkdirAll (.dir false []) rest).map (fun x => .dir re (es ++ [(c, x)]))

/-- `os.WriteFile`: replace or create the file at the path; `none` models
the error raised when the target is a directory, the path is the root, or
the parent directory is missing. -/
def fsWriteFile : FsNode → List String → String → Option FsNode
  | _, [], _ => none
  | .file _ _, _ :: _, _ => none
  | .dir re es, c :: rest, content =>
    match rest with
    | [] =>
      match findEntry es c with
      | some (.dir _ _) => none
      | some (.file _ _) => some (.dir re (setEntry es c (.file content false)))
      | none => some (.dir re (es ++ [(c, .file content false)]))
    | _ :: _ =>
      match findEntry es c with
      | none => none
      | some child => (fsWriteFile child rest content).map (fun x => .dir re (setEntry es c x))

/-!
## Sorted directory reading

`os.ReadDir` returns the directory entries sorted by filename; both
`listDirectoryHandler` and `buildTreeView` iterate over that sorted list.
-/

/-- The ordering `os.ReadDir` sorts by: entry names, lexicographically. -/
def entryLE (a b : String × FsNode) : Prop := a.1 ≤ b.1

instance : DecidableRel entryLE := fun a b =>
  decidable_of_iff (¬ b.1.toList < a.1.toList) (not_congr String.lt_iff_toList_lt).symm

instance : IsTotal (String × FsNode) entryLE := ⟨fun a b => le_total a.1 b.1⟩

instance : IsTrans (String × FsNode) entryLE := ⟨fun _ _ _ h h2 => le_trans h h2⟩

/-- `os.ReadDir`: the entries of a directory, sorted by filename. -/
def readDirSorted (es : List (String × FsNode)) : List (String × FsNode) :=
  List.insertionSort entryLE es

theorem perm_sizeOf_eq {α : Type} [SizeOf α] {l1 l2 : List α} (h : l1.Perm l2) :
    sizeOf l1 = sizeOf l2 := by
  induction h with
  | nil => rfl
  | cons a _ ih => simp [ih]
  | swap a b l => simp; omega
  | trans _ _ ih1 ih2 => exact ih1.trans ih2

theorem readDirSorted_sizeOf (es : List (String × FsNode)) :
    sizeOf (readDirSorted es) = sizeOf es :=
  perm_sizeOf_eq (List.perm_insertionSort entryLE es)

example : readDirSorted [("b", .file "x" false), ("a", .dir false [])]
    = [("a", .dir false []), ("b", .file "x" false)] := rfl

/-!
## Tree rendering

`buildTreeView` from src/main.go lines 368-411, with the filesystem node in
place of the on-disk path.  The string builder is modelled by returning the
rendered text; Go's early `return err` on a `ReadDir` failure is the
`Except` error (the handler then discards the partial builder).  A failing
`entry.Info()` on a file renders the entry without its size and continues,
exactly as the Go loop does.
-/

mutual

/-- Recursive tree renderer: stop once `currentDepth >= maxDepth` (for a
non-negative `maxDepth`), otherwise read the directory (sorted), then for
each entry emit its connector line and recurse into subdirectories. -/
def buildTreeView (node : FsNode) (pre : String) (cur maxD : Int) : Except Unit String :=
  if 0 ≤ maxD ∧ maxD ≤ cur then .ok ""
  else
    match node with
    | .file _ _ => .error ()
    | .dir true _ => .error ()
    | .dir false es => renderEntries (readDirSorted es) pre cur maxD
termination_by sizeOf node
decreasing_by
  simp_wf
  rw [readDirSorted_sizeOf]
  simp

/-- The `for i, entry := range entries` loop body of `buildTreeView`. -/
def renderEntries (es : List (String × FsNode)) (pre : String) (cur maxD : Int) :
    Except Unit String :=
  match es with
  | [] => .ok ""
  | (name, node) :: rest =>
    let connector := if rest.isEmpty then "└── " else "├── "
    let childPre := pre ++ (if rest.isEmpty then "    " else "│   ")
    match node with
    | .dir re sub =>
      match buildTreeView (.dir re sub) childPre (cur + 1) maxD with
      | .error e => .error e
      | .ok subTree =>
        match renderEntries rest pre cur maxD with
        | .error e => .error e
        | .ok tail => .ok (pre ++ connector ++ name ++ "/\n" ++ subTree ++ tail)
    | .file content infoErr =>
      let line :=
        if infoErr then pre ++ connector ++ name ++ "\n"
        else pre ++ connector ++ name ++ " (" ++ toString content.utf8ByteSize ++ " bytes)\n"
      match renderEntries rest pre cur maxD with
      | .error e => .error e
      | .ok tail => .ok (line ++ tail)
termination_by sizeOf es
decreasing_by
  all_goals simp_wf
  all_goals omega

end

/-!
## Argument model and handlers

The transport hands each handler a map of parsed JSON arguments.  A handler
returns either a hard Go error (`nil, fmt.Errorf(...)` — for missing or
wrong-typed arguments only) or a tool result (`NewToolResultError` for the
soft failure payloads, `NewToolResultText` on success).  Every handler is a
function of the environment value, the working directory, the arguments and
the filesystem, returning the result together with the filesystem after the
call.
-/

inductive JsonVal where
  | str (s : String)
  | num (n : Int)
  | boolv (b : Bool)
  | nullv

/-- Argument map delivered by the transport. -/
abbrev Args := List (String × JsonVal)

def lookupArg : Args → String → Option JsonVal
  | [], _ => none
  | (n, v) :: rest, c => if n = c then some v else lookupArg rest c

/-- Outcome of the required-string-argument check. -/
inductive ArgCheck where
  | missing
  | wrongType
  | okStr (s : String)
  deriving DecidableEq, Repr

/-- The two-step check each handler performs on a required string argument:
`!exists || arg == nil` is reported as missing, a failed string type
assertion as wrong type. -/
def checkStringArg (args : Args) (name : String) : ArgCheck :=
  match lookupArg args name with
  | none => .missing
  | some .nullv => .missing
  | some (.str s) => .okStr s
  | some _ => .wrongType

/-- Hard errors (`nil, fmt.Errorf`) raised by the handlers. -/
inductive HandlerError where
  | missingParam (name : String)
  | wrongTypeParam (name : String)
  deriving DecidableEq, Repr

/-- The distinct `NewToolResultError` branches of the handlers. -/
inductive SoftErr where
  | invalidPath (e : PathError)
  | notFound (p : String)
  | notADirectory (p : String)
  | removeFailed (p : String)
  | mkdirFailed (p : String)
  | writeFailed (p : String)
  | ioError (p : String)
  deriving DecidableEq, Repr

/-- What a handler hands back to the transport. -/
inductive ToolResult where
  | hardError (e : HandlerError)
  | softError (e : SoftErr)
  | ok (text : String)
  deriving DecidableEq, Repr

/-- `readFileHandler` (src/main.go lines 413-443). -/
def readFileOp (env cwd : String) (args : Args) (fs : FsNode) : ToolResult × FsNode :=
  match checkStringArg args "file_path" with
  | .missing => (.hardError (.missingParam "file_path"), fs)
  | .wrongType => (.hardError (.wrongTypeParam "file_path"), fs)
  | .okStr filePath =>
    match validatePath env cwd filePath with
    | .error e => (.softError (.invalidPath e), fs)
    | .ok cleanPath =>
      match fs.lookup (pathComponents cleanPath) with
      | none => (.softError (.notFound cleanPath), fs)
      | some (.file content _) => (.ok content, fs)
      | some (.dir _ _) => (.softError (.ioError cleanPath), fs)

/-- `writeFileHandler` (src/main.go lines 445-488): argument checks, path
validation, `MkdirAll` on the parent directory, then `WriteFile`. -/
def writeFileOp (env cwd : String) (args : Args) (fs : FsNode) : ToolResult × FsNode :=
  match checkStringArg args "file_path" with
  | .missing => (.hardError (.missingParam "file_path"), fs)
  | .wrongType => (.hardError (.wrongTypeParam "file_path"), fs)
  | .okStr filePath =>
    match checkStringArg args "content" with
    | .missing => (.hardError (.missingParam "content"), fs)
    | .wrongType => (.hardError (.wrongTypeParam "content"), fs)
    | .okStr content =>
      match validatePath env cwd filePath with
      | .error e => (.softError (.invalidPath e), fs)
      | .ok cleanPath =>
        let comps := pathComponents cleanPath
        match fsMkdirAll fs comps.dropLast with
        | none => (.softError (.mkdirFailed cleanPath), fs)
        | some fs1 =>
          match fsWriteFile fs1 comps content with
          | none => (.softError (.writeFailed cleanPath), fs1)
          | some fs2 =>
            (.ok ("Successfully wrote " ++ toString content.utf8ByteSize ++ " bytes to "
              ++ cleanPath), fs2)

/-- `deleteFileHandler` (src/main.go lines 490-522): argument check, path
validation, a bare existence check (`os.Stat` + `os.IsNotExist`), then
`os.Remove` — there is no directory check. -/
def deleteFileOp (env cwd : String) (args : Args) (fs : FsNode) : ToolResult × FsNode :=
  match checkStringArg args "file_path" with
  | .missing => (.hardError (.missingParam "file_path"), fs)
  | .wrongType => (.hardError (.wrongTypeParam "file_path"), fs)
  | .okStr filePath =>
    match validatePath env cwd filePath with
    | .error e => (.softError (.invalidPath e), fs)
    | .ok cleanPath =>
      match fs.lookup (pathComponents cleanPath) with
      | none => (.softError (.notFound cleanPath), fs)
      | some _ =>
        match fsRemove fs (pathComponents cleanPath) with
        | none => (.softError (.removeFailed cleanPath), fs)
        | some fs2 => (.ok ("Successfully deleted file: " ++ cleanPath), fs2)

/-- `createDirectoryHandler` (src/main.go lines 178-205). -/
def createDirectoryOp (env cwd : String) (args : Args) (fs : FsNode) : ToolResult × FsNode :=
  match checkStringArg args "directory_path" with
  | .missing => (.hardError (.missingParam "directory_path"), fs)
  | .wrongType => (.hardError (.wrongTypeParam "directory_path"), fs)
  | .okStr directoryPath =>
    match validatePath env cwd directoryPath with
    | .error e => (.softError (.invalidPath e), fs)
    | .ok cleanPath =>
      match fsMkdirAll fs (pathComponents cleanPath) with
      | none => (.softError (.mkdirFailed cleanPath), fs)
      | some fs2 => (.ok ("Successfully created directory: " ++ cleanPath), fs2)

/-- `deleteDirectoryHandler` (src/main.go lines 207-248). -/
def deleteDirectoryOp (env cwd : String) (args : Args) (fs : FsNode) : ToolResult × FsNode :=
  match checkStringArg args "directory_path" with
  | .missing => (.hardError (.missingParam "directory_path"), fs)
  | .wrongType => (.hardError (.wrongTypeParam "directory_path"), fs)
  | .okStr directoryPath =>
    match validatePath env cwd directoryPath with
    | .error e => (.softError (.invalidPath e), fs)
    | .ok cleanPath =>
      match fs.lookup (pathComponents cleanPath) with
      | none => (.softError (.notFound cleanPath), fs)
      | some (.file _ _) => (.softError (.notADirectory cleanPath), fs)
      | some (.dir _ _) =>
        (.ok ("Successfully deleted directory: " ++ cleanPath),
          fsDeleteAt fs (pathComponents cleanPath))

/-- One line of the `listDirectoryHandler` output loop. -/
def listEntryLine : String × FsNode → String
  | (n, .dir _ _) => n ++ "/\n"
  | (n, .file content false) => n ++ " (" ++ toString content.utf8ByteSize ++ " bytes)\n"
  | (n, .file _ true) => n ++ "\n"

/-- The listing body: the explicit empty-directory marker, or one line per
(sorted) entry. -/
def listBlock (entries : List (String × FsNode)) : String :=
  if entries.isEmpty then "(empty directory)"
  else String.join (entries.map listEntryLine)

/-- `listDirectoryHandler` (src/main.go lines 250-312). -/
def listDirectoryOp (env cwd : String) (args : Args) (fs : FsNode) : ToolResult × FsNode :=
  match checkStringArg args "directory_path" with
  | .missing => (.hardError (.missingParam "directory_path"), fs)
  | .wrongType => (.hardError (.wrongTypeParam "directory_path"), fs)
  | .okStr directoryPath =>
    match validatePath env cwd directoryPath with
    | .error e => (.softError (.invalidPath e), fs)
    | .ok cleanPath =>
      match fs.lookup (pathComponents cleanPath) with
      | none => (.softError (.notFound cleanPath), fs)
      | some (.file _ _) => (.softError (.notADirectory cleanPath), fs)
      | some (.dir true _) => (.softError (.ioError cleanPath), fs)
      | some (.dir false es) =>
        (.ok ("Contents of directory: " ++ directoryPath ++ "\n\n"
          ++ listBlock (readDirSorted es)), fs)

/-- `treeViewHandler`'s `max_depth` parsing (src/main.go lines 327-333): a
present, non-null numeric argument is used; anything else leaves the
default `-1` (unlimited) in place without raising an error. -/
def parseMaxDepth (args : Args) : Int :=
  match lookupArg args "max_depth" with
  | some (.num d) => d
  | _ => -1

/-- Assembly of `treeViewHandler`'s final answer from the renderer outcome:
an `IOError`-style soft failure if the traversal failed, otherwise the
header plus the rendered tree. -/
def treeResult (directoryPath cleanPath : String) (r : Except Unit String) (fs : FsNode) :
    ToolResult × FsNode :=
  match r with
  | .error _ => (.softError (.ioError cleanPath), fs)
  | .ok body => (.ok ("Tree view of directory: " ++ directoryPath ++ "\n\n" ++ body), fs)

/-- `treeViewHandler` after its argument parsing: path validation, the
existence and directory checks, and the render. -/
def treeViewGo (env cwd directoryPath : String) (maxDepth : Int) (fs : FsNode) :
    ToolResult × FsNode :=
  match validatePath env cwd directoryPath with
  | .error e => (.softError (.invalidPath e), fs)
  | .ok cleanPath =>
    match fs.lookup (pathComponents cleanPath) with
    | none => (.softError (.notFound cleanPath), fs)
    | some (.file _ _) => (.softError (.notADirectory cleanPath), fs)
    | some (.dir re es) =>
      treeResult directoryPath cleanPath (buildTreeView (.dir re es) "" 0 maxDepth) fs

/-- `treeViewHandler` (src/main.go lines 314-366). -/
def treeViewOp (env cwd : String) (args : Args) (fs : FsNode) : ToolResult × FsNode :=
  match checkStringArg args "directory_path" with
  | .missing => (.hardError (.missingParam "directory_path"), fs)
  | .wrongType => (.hardError (.wrongTypeParam "directory_path"), fs)
  | .okStr directoryPath => treeViewGo env cwd directoryPath (parseMaxDepth args) fs

def fsT : FsNode :=
  .dir false [("ws", .dir false [("sub", .dir false [("f.txt", .file "x" false)])])]

example : treeViewOp "/ws" "/c" [("directory_path", .str "."), ("max_depth", .num 0)] fsT
    = (.ok "Tree view of directory: .\n\n", fsT) := by
  show treeResult "." "/ws"
      (buildTreeView (.dir false [("sub", .dir false [("f.txt", .file "x" false)])]) "" 0 0)
      fsT = _
  rw [show buildTreeView (.dir false [("sub", .dir false [("f.txt", .file "x" false)])]) "" 0 0
      = .ok "" by simp [buildTreeView]]
  rfl

example : treeViewOp "/ws" "/c" [("directory_path", .str ".")] fsT
    = (.ok "Tree view of directory: .\n\n└── sub/\n    └── f.txt (1 bytes)\n", fsT) := by
  show treeResult "." "/ws"
      (buildTreeView (.dir false [("sub", .dir false [("f.txt", .file "x" false)])]) "" 0 (-1))
      fsT = _
  rw [show buildTreeView (.dir false [("sub", .dir false [("f.txt", .file "x" false)])]) "" 0 (-1)
      = .ok "└── sub/\n    └── f.txt (1 bytes)\n" by
    simp [buildTreeView, renderEntries, readDirSorted]
    rfl]
  rfl

def fsE : FsNode := .dir false [("ws", .dir false [("d", .dir false [])])]

example : deleteFileOp "/ws" "/c" [("file_path", .str "d")] fsE
    = (.ok "Successfully deleted file: /ws/d", .dir false [("ws", .dir false [])]) := rfl

def fsW : FsNode := .dir false [("ws", .dir false [])]

example : writeFileOp "/ws" "/c"
    [("file_path", .str "a/b.txt"), ("content", .str "hello\nworld")] fsW
    = (.ok "Successfully wrote 11 bytes to /ws/a/b.txt",
       .dir false [("ws", .dir false [("a", .dir false [("b.txt", .file "hello\nworld" false)])])]) := rfl

def fsS : FsNode :=
  .dir false [("ws", .dir false [("b.txt", .file "hi" false), ("a", .dir false [])])]

example : listDirectoryOp "/ws" "/c" [("directory_path", .str "")] fsS
    = (.ok "Contents of directory: \n\na/\nb.txt (2 bytes)\n", fsS) := rfl

def fsB : FsNode :=
  .dir false [("ws", .dir false [("a.txt", .file "hi" true), ("b.txt", .file "ho" false)])]

example : treeViewOp "/ws" "/c" [("directory_path", .str ".")] fsB
    = (.ok "Tree view of directory: .\n\n├── a.txt\n└── b.txt (2 bytes)\n", fsB) := by
  show treeResult "." "/ws"
      (buildTreeView (.dir false [("a.txt", .file "hi" true), ("b.txt", .file "ho" false)]) "" 0 (-1))
      fsB = _
  rw [show buildTreeView (.dir false [("a.txt", .file "hi" true), ("b.txt", .file "ho" false)]) "" 0 (-1)
      = .ok "├── a.txt\n└── b.txt (2 bytes)\n" by
    simp +decide [buildTreeView, renderEntries, readDirSorted]]
  rfl

/-!
## Claims

Each claim of the specification is settled by one theorem below (plus a
closed counterexample where the claim as stated fails on the code).
-/

/-- C1: the containment check of `validatePath` is a bare string-prefix
test against the workspace root, without a separator.  For the workspace
root `/ws`, the input `../wsx/f` resolves to `/wsx/f`, which passes the
check and is returned as a success even though it is not the root and does
not have the root plus a separator as a prefix — the resolver hands out a
path outside the workspace instead of a containment violation. -/
theorem validatePath_sibling_escape :
    validatePath "/ws" "/c" "../wsx/f" = .ok "/wsx/f"
      ∧ ¬ ("/wsx/f" = "/ws" ∨ strHasPrefix "/wsx/f" "/ws/" = true) := by
  refine ⟨rfl, ?_⟩
  intro h
  rcases h with h | h
  · exact absurd h (by decide)
  · exact absurd h (by decide)

/-- C4 counterexample: the workspace configuration is consulted inside the
request handlers, not once at startup.  The very same read request yields a
configuration error when `LOCAL_WORKSPACE_FOLDER` is unset and different
results under different workspace values — so the configuration is re-read
during request handling and its absence does not prevent the process from
serving requests. -/
theorem validatePath_env_read_at_request :
    readFileOp "" "/c" [("file_path", .str "a")] (.dir false [])
        = (.softError (.invalidPath .configMissing), .dir false [])
      ∧ validatePath "/wsA" "/c" "f" = .ok "/wsA/f"
      ∧ validatePath "/wsB" "/c" "f" = .ok "/wsB/f" :=
  ⟨rfl, rfl, rfl⟩

/-- C4 (amended): `validatePath` — called by every handler on every
request — reads the workspace configuration each time; when the
environment variable is empty or unset every call fails with a
configuration error, rather than the process refusing to start. -/
theorem validatePath_config_lazy :
    ∀ cwd userPath : String, validatePath "" cwd userPath = .error .configMissing := by
  intro cwd userPath
  simp [validatePath]

/-- C5 counterexample: an input with a leading backslash for which
resolution does not succeed: after the leading `\` is stripped, `\..`
becomes `..`, escapes the root, and is rejected — refuting the claim that
every input with a leading root marker resolves successfully. -/
theorem validatePath_backslash_dotdot_rejected :
    strHasPrefix "\\.." "\\" = true
      ∧ validatePath "/ws" "/c" "\\.." = .error .outsideWorkspace :=
  ⟨rfl, rfl⟩

/-- C5 (amended): one leading `/` (and one leading `\`) is stripped before
joining, so an absolute-looking input is treated as relative to the
workspace root: `/etc/passwd` resolves to `root/etc/passwd` (not the real
`/etc/passwd`) and `\etc` resolves to `root/etc`; stripping does not make
resolution succeed unconditionally — a remainder that still escapes the
root (such as `\..`) is rejected with a containment violation. -/
theorem validatePath_leading_marker_stripped :
    validatePath "/ws" "/c" "/etc/passwd" = .ok "/ws/etc/passwd"
      ∧ validatePath "/ws" "/c" "\\etc" = .ok "/ws/etc"
      ∧ validatePath "/ws" "/c" "\\.." = .error .outsideWorkspace :=
  ⟨rfl, rfl, rfl⟩

/-- `os.Remove` cannot delete a non-empty directory: if the path points at
a directory with at least one entry, `fsRemove` reports an error. -/
theorem fsRemove_nonempty_dir :
    ∀ (comps : List String) (fs : FsNode) (re : Bool) (es : List (String × FsNode)),
      fs.lookup comps = some (.dir re es) → es ≠ [] → fsRemove fs comps = none := by
  intro comps
  induction comps with
  | nil =>
    intro fs re es h hne
    cases fs <;> rfl
  | cons c rest ih =>
    intro fs re es h hne
    cases fs with
    | file content ie => simp [FsNode.lookup] at h
    | dir re2 es2 =>
      cases hfe : findEntry es2 c with
      | none => simp [FsNode.lookup, hfe] at h
      | some child =>
        simp [FsNode.lookup, hfe] at h
        cases rest with
        | nil =>
          simp [FsNode.lookup] at h
          subst h
          simp [fsRemove, hfe, removable, hne]
        | cons r rs =>
          have hr := ih child re es h hne
          simp [fsRemove, hfe, hr]

def fsN : FsNode :=
  .dir false [("ws", .dir false [("d", .dir false [("x", .file "hi" false)])])]

/-- C2 counterexample: `delete_file` on a path that resolves to an existing
*empty* directory does not fail with a type-mismatch error — it succeeds
and removes the directory, changing the filesystem. -/
theorem deleteFile_empty_dir_removed :
    fsE.lookup ["ws", "d"] = some (.dir false [])
      ∧ deleteFileOp "/ws" "/c" [("file_path", .str "d")] fsE
        = (.ok "Successfully deleted file: /ws/d", .dir false [("ws", .dir false [])]) :=
  ⟨rfl, rfl⟩

/-- C2 (amended): `deleteFileHandler` performs no directory check at all.
On a *non-empty* directory the underlying `os.Remove` fails, the handler
returns the generic deletion-error payload (not a type-mismatch error) and
the filesystem is unchanged; on an empty directory it succeeds and removes
it (see the counterexample); it never removes a directory together with
its contents. -/
theorem deleteFile_nonempty_dir_fails (env cwd fp p : String) (args : Args) (fs : FsNode)
    (re : Bool) (es : List (String × FsNode))
    (h1 : checkStringArg args "file_path" = .okStr fp)
    (h2 : validatePath env cwd fp = .ok p)
    (h3 : fs.lookup (pathComponents p) = some (.dir re es))
    (h4 : es ≠ []) :
    deleteFileOp env cwd args fs = (.softError (.removeFailed p), fs) := by
  have hr := fsRemove_nonempty_dir (pathComponents p) fs re es h3 h4
  simp [deleteFileOp, h1, h2, h3, hr]

/-- C2 witness: a workspace whose `d` is a directory holding one file;
`delete_file d` returns the deletion-error payload and leaves the
filesystem untouched. -/
theorem deleteFile_nonempty_dir_fails_witness :
    deleteFileOp "/ws" "/c" [("file_path", .str "d")] fsN
      = (.softError (.removeFailed "/ws/d"), fsN) :=
  deleteFile_nonempty_dir_fails "/ws" "/c" "d" "/ws/d"
    [("file_path", .str "d")] fsN false [("x", .file "hi" false)]
    rfl rfl rfl (by simp)

/-- Concatenation of a list of output lines. -/
def strConcat : List String → String
  | [] => ""
  | line :: rest => line ++ strConcat rest

/-- One output line per entry — the connector tie-break of the tree
renderer with no descent: what expanding exactly one level prints. -/
def shallowLines : List (String × FsNode) → String → List String
  | [], _ => []
  | (name, node) :: rest, pre =>
    let connector := if rest.isEmpty then "└── " else "├── "
    (match node with
     | .dir _ _ => pre ++ connector ++ name ++ "/\n"
     | .file content infoErr =>
       if infoErr then pre ++ connector ++ name ++ "\n"
       else pre ++ connector ++ name ++ " (" ++ toString content.utf8ByteSize ++ " bytes)\n")
      :: shallowLines rest pre

theorem shallowLines_length :
    ∀ (es : List (String × FsNode)) (pre : String), (shallowLines es pre).length = es.length := by
  intro es
  induction es with
  | nil => intro pre; rfl
  | cons e rest ih =>
    intro pre
    obtain ⟨name, node⟩ := e
    simp [shallowLines, ih]

theorem readDirSorted_length (es : List (String × FsNode)) :
    (readDirSorted es).length = es.length :=
  (List.perm_insertionSort entryLE es).length_eq

/-- Depth limiting fires before anything is read: with `0 ≤ maxDepth ≤
currentDepth` the renderer returns at once with empty output. -/
theorem buildTreeView_stop (node : FsNode) (pre : String) {cur maxD : Int}
    (h1 : 0 ≤ maxD) (h2 : maxD ≤ cur) : buildTreeView node pre cur maxD = .ok "" := by
  rw [buildTreeView.eq_def]
  simp [h1, h2]

theorem renderEntries_depth_one :
    ∀ (es : List (String × FsNode)) (pre : String),
      renderEntries es pre 0 1 = .ok (strConcat (shallowLines es pre)) := by
  intro es
  induction es with
  | nil => intro pre; simp [renderEntries, shallowLines, strConcat]
  | cons e rest ih =>
    intro pre
    obtain ⟨name, node⟩ := e
    cases node with
    | dir re sub =>
      have hstop := buildTreeView_stop (.dir re sub)
        (pre ++ (if rest.isEmpty then "    " else "│   "))
        (by norm_num) (le_refl (1 : Int))
      simp [renderEntries, shallowLines, strConcat, hstop, ih]
    | file content infoErr =>
      simp [renderEntries, shallowLines, strConcat, ih]

/-- C3 counterexample: a workspace whose root has the subdirectory `sub`,
yet `tree_view` with `max_depth = 0` renders no entries at all — only the
header — instead of listing the immediate child. -/
theorem treeView_depth_zero_lists_nothing :
    fsT.lookup ["ws", "sub"] = some (.dir false [("f.txt", .file "x" false)])
      ∧ treeViewOp "/ws" "/c" [("directory_path", .str "."), ("max_depth", .num 0)] fsT
        = (.ok "Tree view of directory: .\n\n", fsT) := by
  refine ⟨rfl, ?_⟩
  show treeResult "." "/ws"
      (buildTreeView (.dir false [("sub", .dir false [("f.txt", .file "x" false)])]) "" 0 0)
      fsT = _
  rw [buildTreeView_stop _ _ (le_refl (0 : Int)) (le_refl (0 : Int))]
  rfl

/-- C3 (amended): `max_depth = 0` stops the renderer before it reads the
queried directory, producing no entries; the behaviour the claim describes
— every immediate child rendered exactly once, none of their descendants —
is what `max_depth = 1` produces. -/
theorem treeView_depth_semantics :
    (∀ (node : FsNode) (pre : String), buildTreeView node pre 0 0 = .ok "")
      ∧ (∀ (es : List (String × FsNode)) (pre : String),
          buildTreeView (.dir false es) pre 0 1
              = .ok (strConcat (shallowLines (readDirSorted es) pre))
            ∧ (shallowLines (readDirSorted es) pre).length = es.length) := by
  constructor
  · intro node pre
    exact buildTreeView_stop node pre (le_refl (0 : Int)) (le_refl (0 : Int))
  · intro es pre
    constructor
    · have hu : buildTreeView (.dir false es) pre 0 1 = renderEntries (readDirSorted es) pre 0 1 := by
        simp [buildTreeView]
      rw [hu, renderEntries_depth_one]
    · rw [shallowLines_length, readDirSorted_length]

/-- C6 counterexample: `tree_view` with a *string*-valued `max_depth` is
not rejected: it returns the very same successful unlimited-depth render as
the call without `max_depth` (here the tree is two levels deep, so the
output even shows that depth limiting was not applied). -/
theorem treeView_bad_max_depth_ignored_concrete :
    treeViewOp "/ws" "/c" [("directory_path", .str "."), ("max_depth", .str "2")] fsT
        = (.ok "Tree view of directory: .\n\n└── sub/\n    └── f.txt (1 bytes)\n", fsT)
      ∧ treeViewOp "/ws" "/c" [("directory_path", .str ".")] fsT
        = (.ok "Tree view of directory: .\n\n└── sub/\n    └── f.txt (1 bytes)\n", fsT) := by
  have hb : buildTreeView (.dir false [("sub", .dir false [("f.txt", .file "x" false)])]) "" 0 (-1)
      = .ok "└── sub/\n    └── f.txt (1 bytes)\n" := by
    simp [buildTreeView, renderEntries, readDirSorted]
    rfl
  constructor
  · show treeResult "." "/ws"
        (buildTreeView (.dir false [("sub", .dir false [("f.txt", .file "x" false)])]) "" 0 (-1))
        fsT = _
    rw [hb]
    rfl
  · show treeResult "." "/ws"
        (buildTreeView (.dir false [("sub", .dir false [("f.txt", .file "x" false)])]) "" 0 (-1))
        fsT = _
    rw [hb]
    rfl

/-- C6 (amended): a `max_depth` argument that is present but not a number
is silently ignored by `treeViewHandler` — the parsed depth stays at the
default `-1` (unlimited) and the call behaves exactly as if `max_depth`
had been omitted; it is not rejected as a wrong-typed argument. -/
theorem treeView_bad_max_depth_ignored (env cwd dp : String) (v : JsonVal) (fs : FsNode)
    (hv : ∀ n : Int, ¬ v = .num n) :
    parseMaxDepth [("directory_path", .str dp), ("max_depth", v)] = -1
      ∧ treeViewOp env cwd [("directory_path", .str dp), ("max_depth", v)] fs
        = treeViewOp env cwd [("directory_path", .str dp)] fs := by
  have hp : parseMaxDepth [("directory_path", .str dp), ("max_depth", v)] = -1 := by
    cases v with
    | num n => exact absurd rfl (hv n)
    | str s2 => rfl
    | boolv b => rfl
    | nullv => rfl
  refine ⟨hp, ?_⟩
  show treeViewGo env cwd dp (parseMaxDepth [("directory_path", .str dp), ("max_depth", v)]) fs
      = treeViewGo env cwd dp (-1) fs
  rw [hp]

/-- C6 witness: the general theorem applied to a string-valued
`max_depth`. -/
theorem treeView_bad_max_depth_ignored_witness :
    parseMaxDepth [("directory_path", .str "."), ("max_depth", .str "two")] = -1
      ∧ treeViewOp "/ws" "/c" [("directory_path", .str "."), ("max_depth", .str "two")] fsT
        = treeViewOp "/ws" "/c" [("directory_path", .str ".")] fsT :=
  treeView_bad_max_depth_ignored "/ws" "/c" "." (.str "two") fsT
    (fun _ h => JsonVal.noConfusion h)

/-- C8 counterexample: a directory holding the file `a.txt` whose
`entry.Info()` fails and a healthy `b.txt`.  The render does not abort with
an `IOError`: it succeeds, with `a.txt` rendered degraded (no size
annotation) and the rest of the tree intact — a partial/degraded render the
claim says cannot happen. -/
theorem treeView_info_error_degrades :
    fsB.lookup ["ws", "a.txt"] = some (.file "hi" true)
      ∧ treeViewOp "/ws" "/c" [("directory_path", .str ".")] fsB
        = (.ok "Tree view of directory: .\n\n├── a.txt\n└── b.txt (2 bytes)\n", fsB) := by
  refine ⟨rfl, ?_⟩
  show treeResult "." "/ws"
      (buildTreeView (.dir false [("a.txt", .file "hi" true), ("b.txt", .file "ho" false)]) "" 0 (-1))
      fsB = _
  rw [show buildTreeView (.dir false [("a.txt", .file "hi" true), ("b.txt", .file "ho" false)])
        "" 0 (-1) = .ok "├── a.txt\n└── b.txt (2 bytes)\n" by
    simp +decide [buildTreeView, renderEntries, readDirSorted]]
  rfl

/-- C8 (amended): only a failure of `os.ReadDir` aborts the render — a
directory whose listing fails makes the whole traversal return an error
(whenever the depth limit has not already stopped descent); a failure to
stat an individual file does *not* abort: that entry is rendered as a bare
name without its size annotation and the traversal continues with the
remaining siblings. -/
theorem treeView_io_error_semantics :
    (∀ (es : List (String × FsNode)) (pre : String) (cur maxD : Int),
        ¬ (0 ≤ maxD ∧ maxD ≤ cur) → buildTreeView (.dir true es) pre cur maxD = .error ())
      ∧ (∀ (name content : String) (rest : List (String × FsNode)) (pre : String)
          (cur maxD : Int),
          renderEntries ((name, .file content true) :: rest) pre cur maxD
            = (renderEntries rest pre cur maxD).map
                (fun tail => pre ++ (if rest.isEmpty then "└── " else "├── ") ++ name ++ "\n"
                  ++ tail)) := by
  constructor
  · intro es pre cur maxD h
    rw [buildTreeView.eq_def]
    simp [h]
  · intro name content rest pre cur maxD
    cases hr : renderEntries rest pre cur maxD with
    | error e => simp [renderEntries, hr, Except.map]
    | ok tail => simp [renderEntries, hr, Except.map]

/-- C8 witness: the abort clause at an unreadable directory and the
degraded-line clause at a file with a failing stat, both at unlimited
depth. -/
theorem treeView_io_error_semantics_witness :
    buildTreeView (.dir true []) "" 0 (-1) = .error ()
      ∧ renderEntries [("a", .file "hi" true)] "" 0 (-1)
        = (renderEntries [] "" 0 (-1)).map
            (fun tail => "" ++ (if ([] : List (String × FsNode)).isEmpty then "└── " else "├── ")
              ++ "a" ++ "\n" ++ tail) :=
  ⟨treeView_io_error_semantics.1 [] "" 0 (-1) (by norm_num),
   treeView_io_error_semantics.2 "a" "hi" [] "" 0 (-1)⟩

/-- C7: whenever a required argument is missing (or null) or fails its
string type assertion, the handler returns the hard error (`nil,
fmt.Errorf(...)`) — a class distinct from the soft `NewToolResultError`
payloads — and the filesystem plays no role in the call: the result is the
same fixed pair for *every* filesystem, which is returned unchanged.
Covers all seven operations and both required arguments of `write_file`. -/
theorem handlers_arg_error_before_fs (env cwd : String) (args : Args) (fs : FsNode) :
    (checkStringArg args "file_path" = .missing →
        readFileOp env cwd args fs = (.hardError (.missingParam "file_path"), fs)
          ∧ writeFileOp env cwd args fs = (.hardError (.missingParam "file_path"), fs)
          ∧ deleteFileOp env cwd args fs = (.hardError (.missingParam "file_path"), fs))
      ∧ (checkStringArg args "file_path" = .wrongType →
        readFileOp env cwd args fs = (.hardError (.wrongTypeParam "file_path"), fs)
          ∧ writeFileOp env cwd args fs = (.hardError (.wrongTypeParam "file_path"), fs)
          ∧ deleteFileOp env cwd args fs = (.hardError (.wrongTypeParam "file_path"), fs))
      ∧ (checkStringArg args "directory_path" = .missing →
        createDirectoryOp env cwd args fs = (.hardError (.missingParam "directory_path"), fs)
          ∧ deleteDirectoryOp env cwd args fs = (.hardError (.missingParam "directory_path"), fs)
          ∧ listDirectoryOp env cwd args fs = (.hardError (.missingParam "directory_path"), fs)
          ∧ treeViewOp env cwd args fs = (.hardError (.missingParam "directory_path"), fs))
      ∧ (checkStringArg args "directory_path" = .wrongType →
        createDirectoryOp env cwd args fs = (.hardError (.wrongTypeParam "directory_path"), fs)
          ∧ deleteDirectoryOp env cwd args fs = (.hardError (.wrongTypeParam "directory_path"), fs)
          ∧ listDirectoryOp env cwd args fs = (.hardError (.wrongTypeParam "directory_path"), fs)
          ∧ treeViewOp env cwd args fs = (.hardError (.wrongTypeParam "directory_path"), fs))
      ∧ (∀ fp : String, checkStringArg args "file_path" = .okStr fp →
          checkStringArg args "content" = .missing →
          writeFileOp env cwd args fs = (.hardError (.missingParam "content"), fs))
      ∧ (∀ fp : String, checkStringArg args "file_path" = .okStr fp →
          checkStringArg args "content" = .wrongType →
          writeFileOp env cwd args fs = (.hardError (.wrongTypeParam "content"), fs)) := by
  refine ⟨?_, ?_, ?_, ?_, ?_, ?_⟩
  · intro h
    exact ⟨by simp [readFileOp, h], by simp [writeFileOp, h], by simp [deleteFileOp, h]⟩
  · intro h
    exact ⟨by simp [readFileOp, h], by simp [writeFileOp, h], by simp [deleteFileOp, h]⟩
  · intro h
    exact ⟨by simp [createDirectoryOp, h], by simp [deleteDirectoryOp, h],
      by simp [listDirectoryOp, h], by simp [treeViewOp, h]⟩
  · intro h
    exact ⟨by simp [createDirectoryOp, h], by simp [deleteDirectoryOp, h],
      by simp [listDirectoryOp, h], by simp [treeViewOp, h]⟩
  · intro fp h1 h2
    simp [writeFileOp, h1, h2]
  · intro fp h1 h2
    simp [writeFileOp, h1, h2]

/-- C7 witness: with an empty argument map, reading a file and rendering a
tree both fail hard with the missing-parameter error, leaving the
filesystem untouched. -/
theorem handlers_arg_error_before_fs_witness :
    readFileOp "/ws" "/c" [] fsW = (.hardError (.missingParam "file_path"), fsW)
      ∧ treeViewOp "/ws" "/c" [] fsW = (.hardError (.missingParam "directory_path"), fsW) :=
  ⟨((handlers_arg_error_before_fs "/ws" "/c" [] fsW).1 rfl).1,
   ((handlers_arg_error_before_fs "/ws" "/c" [] fsW).2.2.1 rfl).2.2.2⟩

theorem findEntry_setEntry_found :
    ∀ (es : List (String × FsNode)) (c : String) (v : FsNode),
      (findEntry es c).isSome → findEntry (setEntry es c v) c = some v := by
  intro es c v
  induction es with
  | nil => intro h; simp [findEntry] at h
  | cons e rest ih =>
    obtain ⟨n, node⟩ := e
    intro h
    by_cases hn : n = c
    · simp [setEntry, findEntry, hn]
    · simp [findEntry, setEntry, hn] at h ⊢
      exact ih h

theorem findEntry_append_new :
    ∀ (es : List (String × FsNode)) (c : String) (v : FsNode),
      findEntry es c = none → findEntry (es ++ [(c, v)]) c = some v := by
  intro es c v
  induction es with
  | nil => intro h; simp [findEntry]
  | cons e rest ih =>
    obtain ⟨n, node⟩ := e
    intro h
    by_cases hn : n = c
    · simp [findEntry, hn] at h
    · simp [findEntry, hn] at h ⊢
      exact ih h

/-- After a successful `WriteFile`, the written path holds exactly the
written file. -/
theorem fsWriteFile_lookup :
    ∀ (comps : List String) (fs fs2 : FsNode) (content : String),
      fsWriteFile fs comps content = some fs2 →
      fs2.lookup comps = some (.file content false) := by
  intro comps
  induction comps with
  | nil => intro fs fs2 content h; simp [fsWriteFile] at h
  | cons c rest ih =>
    intro fs fs2 content h
    cases fs with
    | file _ _ => simp [fsWriteFile] at h
    | dir re es =>
      cases rest with
      | nil =>
        cases hfe : findEntry es c with
        | none =>
          simp only [fsWriteFile, hfe] at h
          obtain rfl := Option.some.inj h
          simp [FsNode.lookup, findEntry_append_new es c _ hfe]
        | some child =>
          cases child with
          | file c2 ie2 =>
            simp only [fsWriteFile, hfe] at h
            obtain rfl := Option.some.inj h
            have hfind := findEntry_setEntry_found es c (.file content false) (by simp [hfe])
            simp [FsNode.lookup, hfind]
          | dir _ _ => simp [fsWriteFile, hfe] at h
      | cons r rs =>
        cases hfe : findEntry es c with
        | none => simp [fsWriteFile, hfe] at h
        | some child =>
          simp only [fsWriteFile, hfe, Option.map_eq_some'] at h
          obtain ⟨x, hx, hfs2⟩ := h
          subst hfs2
          have hfind := findEntry_setEntry_found es c x (by simp [hfe])
          simp [FsNode.lookup, hfind, ih child x content hx]

/-- C9: whenever `write_file` succeeds, an immediately following
`read_file` with the same `file_path` argument returns exactly the written
content (the very string, hence byte for byte, embedded newlines
included), and leaves the filesystem as the write left it. -/
theorem write_then_read_roundtrip (env cwd : String) (args : Args) (fs fs2 : FsNode)
    (m content : String)
    (hc : checkStringArg args "content" = .okStr content)
    (hw : writeFileOp env cwd args fs = (.ok m, fs2)) :
    readFileOp env cwd args fs2 = (.ok content, fs2) := by
  simp only [writeFileOp] at hw
  cases hcf : checkStringArg args "file_path" with
  | missing => simp only [hcf] at hw; exact absurd hw (by simp)
  | wrongType => simp only [hcf] at hw; exact absurd hw (by simp)
  | okStr fp =>
    simp only [hcf, hc] at hw
    cases hv : validatePath env cwd fp with
    | error e => simp only [hv] at hw; exact absurd hw (by simp)
    | ok p =>
      simp only [hv] at hw
      cases hm : fsMkdirAll fs (pathComponents p).dropLast with
      | none => simp only [hm] at hw; exact absurd hw (by simp)
      | some fs1 =>
        simp only [hm] at hw
        cases hwf : fsWriteFile fs1 (pathComponents p) content with
        | none => simp only [hwf] at hw; exact absurd hw (by simp)
        | some fs3 =>
          simp only [hwf] at hw
          have hfs : fs3 = fs2 := congrArg Prod.snd hw
          subst hfs
          have hl := fsWriteFile_lookup (pathComponents p) fs1 fs3 content hwf
          simp [readFileOp, hcf, hv, hl]

def fsWr : FsNode :=
  .dir false [("ws", .dir false [("a", .dir false [("b.txt", .file "hello\nworld" false)])])]

/-- C9 witness: writing `hello\nworld` to `a/b.txt` in an empty workspace
succeeds (creating the parent directory), and reading the same path back
returns exactly that content. -/
theorem write_then_read_roundtrip_witness :
    readFileOp "/ws" "/c" [("file_path", .str "a/b.txt"), ("content", .str "hello\nworld")] fsWr
      = (.ok "hello\nworld", fsWr) :=
  write_then_read_roundtrip "/ws" "/c"
    [("file_path", .str "a/b.txt"), ("content", .str "hello\nworld")] fsW fsWr
    "Successfully wrote 11 bytes to /ws/a/b.txt" "hello\nworld" rfl rfl

/-- C10: `os.ReadDir` hands both `listDirectoryHandler` and every level of
`buildTreeView` the directory entries sorted by filename.  The sorted
listing is a permutation of the directory's entries in lexicographically
non-decreasing name order, the listing body is rendered from exactly that
sorted sequence, and every tree expansion of a readable directory renders
the same sorted sequence — so for a fixed filesystem the output text is a
function of the filesystem alone. -/
theorem listing_sorted_deterministic (es : List (String × FsNode)) :
    ((readDirSorted es).map Prod.fst).Sorted (· ≤ ·)
      ∧ ((readDirSorted es).map Prod.fst).Perm (es.map Prod.fst)
      ∧ (∀ (env cwd dp p : String) (args : Args) (fs : FsNode),
          checkStringArg args "directory_path" = .okStr dp →
          validatePath env cwd dp = .ok p →
          fs.lookup (pathComponents p) = some (.dir false es) →
          listDirectoryOp env cwd args fs
            = (.ok ("Contents of directory: " ++ dp ++ "\n\n" ++ listBlock (readDirSorted es)),
               fs))
      ∧ (∀ (pre : String) (cur maxD : Int), ¬ (0 ≤ maxD ∧ maxD ≤ cur) →
          buildTreeView (.dir false es) pre cur maxD
            = renderEntries (readDirSorted es) pre cur maxD) := by
  refine ⟨?_, ?_, ?_, ?_⟩
  · rw [List.Sorted, List.pairwise_map]
    exact List.sorted_insertionSort entryLE es
  · exact (List.perm_insertionSort entryLE es).map Prod.fst
  · intro env cwd dp p args fs h1 h2 h3
    simp [listDirectoryOp, h1, h2, h3]
  · intro pre cur maxD h
    rw [buildTreeView.eq_def]
    simp [h]

/-- C10 witness: a directory physically holding `b.txt` before `a`; the
listing renders the sorted order `a/`, then `b.txt (2 bytes)`. -/
theorem listing_sorted_deterministic_witness :
    listDirectoryOp "/ws" "/c" [("directory_path", .str "")] fsS
      = (.ok ("Contents of directory: " ++ "" ++ "\n\n"
          ++ listBlock (readDirSorted [("b.txt", .file "hi" false), ("a", .dir false [])])),
         fsS) :=
  (listing_sorted_deterministic [("b.txt", .file "hi" false), ("a", .dir false [])]).2.2.1
    "/ws" "/c" "" "/ws" [("directory_path", .str "")] fsS rfl rfl rfl
